import Mathlib

/-!
Verification of the BECE Master tutor front-end (JOSHUA-AI repository).

Strings of the TypeScript source are modelled as lists of characters.
The asynchronous controller functions are modelled as explicit state
transitions; the remote AI call is modelled by an outcome parameter.
-/

namespace JoshuaAI

/-! ### JS string primitives used by the source -/

/-- Boolean test that `pat` occurs at the start of `cs` (one position of a
JS substring search, also `String.prototype.startsWith`). -/
def leadsWith : List Char → List Char → Bool
  | [], _ => true
  | _ :: _, [] => false
  | a :: as, b :: bs => a == b && leadsWith as bs

/-- Index of the leftmost occurrence of `sep` in `cs`, as used by
`String.prototype.split`, `String.prototype.includes` and regex search. -/
def firstOcc (sep : List Char) : List Char → Option Nat
  | [] => if leadsWith sep [] then some 0 else none
  | c :: cs => if leadsWith sep (c :: cs) then some 0 else (firstOcc sep cs).map (· + 1)

/-- JS `hay.includes(needle)`. -/
def jsIncludes (hay needle : List Char) : Bool := (firstOcc needle hay).isSome

/-- Fuelled worker for `splitList`; fuel `cs.length + 1` always suffices for a
non-empty separator. -/
def splitListF (sep : List Char) : Nat → List Char → List (List Char)
  | 0, cs => [cs]
  | fuel + 1, cs =>
    match firstOcc sep cs with
    | none => [cs]
    | some i => cs.take i :: splitListF sep fuel (cs.drop (i + sep.length))

/-- JS `cs.split(sep)` for a non-empty separator `sep`: cut at each leftmost
occurrence, scanning left to right. -/
def splitList (sep cs : List Char) : List (List Char) :=
  splitListF sep (cs.length + 1) cs

/-- A list has no non-trivial self-overlap: no proper non-empty suffix of it is
also a prefix of it. This holds for the explanation marker and guarantees that
occurrences of the separator cannot straddle a concatenation boundary. -/
def BorderFree (sep : List Char) : Prop :=
  ∀ k, k < sep.length → 0 < k → sep.drop k ≠ sep.take (sep.length - k)

/-! ### The explanation marker and the split used by the tutor chat -/

/-- The two-part answer delimiter of the tutor chat. -/
def EXPLANATION_MARKER : List Char := "[EXPLANATION]".data

instance (sep : List Char) : Decidable (BorderFree sep) := by
  unfold BorderFree
  infer_instance

/-- The split performed by the TutorChat render: `displayContent.split(EXPLANATION_MARKER)`. -/
def splitMessage (cs : List Char) : List (List Char) :=
  splitList EXPLANATION_MARKER cs

/-- Part 0 of the split: the answer shown (and spoken) by the controller. -/
def answerOf (cs : List Char) : List Char := (splitMessage cs).headI

/-- Part 1 of the split: the optional detailed explanation (JS `parts[1]`,
`none` when the marker is absent). -/
def explanationOf (cs : List Char) : Option (List Char) := (splitMessage cs).get? 1

/-! ### The ERROR_MODE regex of the TutorChat render

The render decodes error-tagged messages with the JS regex
ERROR_MODE bracket lazy-group bracket group, where the dot of both groups
excludes line terminators. -/

/-- JS line terminators, which the regex dot never matches. -/
def isLineTerm (c : Char) : Bool :=
  c == '\n' || c == '\r' || c == '\u2028' || c == '\u2029'

/-- The literal head of the regex and of the error-tag encoding. -/
def errPre : List Char := "ERROR_MODE[".data

/-- The lazy first capture group: the shortest run of non-terminator characters
up to the first closing bracket; fails if a line terminator comes first. -/
def lazyGroup : List Char → Option (List Char × List Char)
  | [] => none
  | c :: rest =>
    if c == ']' then some ([], rest)
    else if isLineTerm c then none
    else (lazyGroup rest).map (fun p => (c :: p.1, p.2))

/-- One regex match attempt at the start of `cs`. The second group is the
greedy dot-star: everything up to the first line terminator. -/
def matchAt (cs : List Char) : Option (List Char × List Char) :=
  if leadsWith errPre cs then
    (lazyGroup (cs.drop errPre.length)).map
      (fun p => (p.1, p.2.takeWhile (fun c => !isLineTerm c)))
  else none

/-- JS regex search: the leftmost position where a match attempt succeeds. -/
def regexSearch : List Char → Option (List Char × List Char)
  | [] => matchAt []
  | c :: cs =>
    match matchAt (c :: cs) with
    | some r => some r
    | none => regexSearch cs

/-- The TutorChat render decoding of a message text into
(errorType, displayContent); non-matching texts keep the defaults. -/
def renderDecode (text : List Char) : List Char × List Char :=
  if leadsWith errPre text then
    match regexSearch text with
    | some p => p
    | none => ("unknown".data, text)
  else ("unknown".data, text)

/-! ### The AI response client (geminiService solveQuestion) -/

/-- The failure taxonomy of StudyAIError. -/
inductive ErrKind
  | network
  | timeout
  | server
  | safety
  | unknown
deriving DecidableEq

/-- A StudyAIError value: a kind and a human-readable message. -/
structure StudyAIError where
  kind : ErrKind
  msg : List Char
deriving DecidableEq

/-- The string form of an error kind, as interpolated into the error tag. -/
def kindStr : ErrKind → List Char
  | .network => "network".data
  | .timeout => "timeout".data
  | .server => "server".data
  | .safety => "safety".data
  | .unknown => "unknown".data

def offlineMsg : List Char :=
  "You appear to be offline. Please check your internet connection.".data

def netFailMsg : List Char :=
  "Network connection failed. Please check your internet.".data

def timeoutMsg : List Char :=
  "The request took too long. The server might be busy.".data

def capacityMsg : List Char :=
  "AI capacity reached. Please wait a minute and try again.".data

def genericServerMsg : List Char :=
  "The study server encountered an error. Please try again later.".data

def safetyMsg : List Char :=
  "This content was flagged by safety filters. Please try rephrasing your question.".data

def emptyRespMsg : List Char :=
  "The AI returned an empty response. Please try again.".data

/-- JS toLowerCase, character by character. -/
def toLowerList (cs : List Char) : List Char := cs.map Char.toLower

/-- The network-word test of the catch cascade. -/
def netWords (m : List Char) : Bool :=
  jsIncludes m "fetch".data || jsIncludes m "network".data ||
    jsIncludes m "failed to execute".data

/-- The timeout-word test of the catch cascade. -/
def timeWords (m : List Char) : Bool :=
  jsIncludes m "deadline".data || jsIncludes m "timeout".data ||
    jsIncludes m "exceeded".data

/-- The quota-word test of the catch cascade. -/
def quotaWords (m : List Char) : Bool :=
  jsIncludes m "429".data || jsIncludes m "quota".data ||
    jsIncludes m "too many requests".data

/-- The catch cascade of solveQuestion for an unclassified thrown error. -/
def classifyCatch (msg : List Char) : StudyAIError :=
  let m := toLowerList msg
  if netWords m then ⟨.network, netFailMsg⟩
  else if timeWords m then ⟨.timeout, timeoutMsg⟩
  else if quotaWords m then ⟨.server, capacityMsg⟩
  else ⟨.server, genericServerMsg⟩

/-- What the awaited generateContent call can do: either deliver a response
(text, possibly empty, with a safety finish reason flag) or throw. -/
inductive ThrownError
  | studyAI (kind : ErrKind) (msg : List Char)
  | other (msg : List Char)
deriving DecidableEq

inductive GenOutcome
  | response (text : List Char) (safetyBlocked : Bool)
  | thrown (e : ThrownError)
deriving DecidableEq

/-- solveQuestion from geminiService: offline check first, then the response
checks and the catch cascade; a StudyAIError thrown inside passes through. -/
def solveQuestion (onLine : Bool) (outcome : GenOutcome) :
    Except StudyAIError (List Char) :=
  if !onLine then .error ⟨.network, offlineMsg⟩
  else
    match outcome with
    | .response text safetyBlocked =>
      if text.isEmpty then
        if safetyBlocked then .error ⟨.safety, safetyMsg⟩
        else .error ⟨.server, emptyRespMsg⟩
      else .ok text
    | .thrown (.studyAI k m) => .error ⟨k, m⟩
    | .thrown (.other m) => .error (classifyCatch m)

/-! ### The conversation controller (TutorChat handleSend and retry) -/

inductive Role
  | user
  | model
deriving DecidableEq

structure ChatMessage where
  id : String
  role : Role
  text : List Char
  image : Option (List Char)
deriving DecidableEq

/-- The controller state touched by handleSend and retry: the transcript, the
text input, the pending image and the loading flag. -/
structure ChatState where
  messages : List ChatMessage
  input : List Char
  image : Option (List Char)
  loading : Bool
deriving DecidableEq

/-- JS falsiness of the image state (null or the empty string). -/
def jsFalsy : Option (List Char) → Bool
  | none => true
  | some s => s.isEmpty

/-- JS value-or-nothing coercion used by both image fallbacks in the source. -/
def jsOrNull (o : Option (List Char)) : Option (List Char) :=
  match o with
  | none => none
  | some s => if s.isEmpty then none else some s

/-- The whitespace class stripped by JS String.prototype.trim. -/
def isJsSpace (c : Char) : Bool :=
  c == ' ' || c == '\t' || c == '\n' || c == '\r' || c == '\x0b' ||
    c == '\x0c' || c == '\u00A0' || c == '\u2028' || c == '\u2029' || c == '\uFEFF'

/-- JS String.prototype.trim. -/
def jsTrim (s : List Char) : List Char :=
  ((s.dropWhile isJsSpace).reverse.dropWhile isJsSpace).reverse

/-- The error-tag encoding written by the handleSend catch branch. -/
def encodeErrorText (e : StudyAIError) : List Char :=
  errPre ++ kindStr e.kind ++ "]".data ++ e.msg

/-- The user message built by handleSend before the AI call. -/
def userMsgOf (st : ChatState) (now : Nat) : ChatMessage :=
  ⟨toString now, .user, st.input, jsOrNull st.image⟩

/-- The model message appended by handleSend on success. -/
def botMsgOf (now2 : Nat) (text : List Char) : ChatMessage :=
  ⟨toString (now2 + 1), .model, text, none⟩

/-- The synchronous head of handleSend, up to the awaited AI call: the guard,
the optimistic user-message append and the input/image/loading updates. The
boolean records whether the AI client is invoked. -/
def handleSendStart (st : ChatState) (now : Nat) : ChatState × Bool :=
  if (jsTrim st.input).isEmpty && jsFalsy st.image then (st, false)
  else
    ({ messages := st.messages ++ [userMsgOf st now],
       input := [], image := none, loading := true }, true)

/-- The continuation of handleSend once the AI call settles: append the model
message (error-tagged on failure) and clear loading. -/
def handleSendFinish (st : ChatState) (now2 : Nat)
    (result : Except StudyAIError (List Char)) : ChatState :=
  match result with
  | .ok text =>
    { st with messages := st.messages ++ [botMsgOf now2 text], loading := false }
  | .error e =>
    { st with messages := st.messages ++ [botMsgOf now2 (encodeErrorText e)],
              loading := false }

/-- The disabled condition of the Ask button. -/
def askDisabled (st : ChatState) : Bool :=
  st.loading || (st.input.isEmpty && jsFalsy st.image)

/-- The retry button handler: find the last user message anywhere in the
transcript; if none, do nothing; otherwise drop every message with the clicked
id and restore that last user text and image. -/
def retryClick (st : ChatState) (mId : String) : ChatState :=
  match st.messages.reverse.find? (fun m => m.role == Role.user) with
  | none => st
  | some lastUser =>
    { st with messages := st.messages.filter (fun m => m.id != mId),
              input := lastUser.text,
              image := jsOrNull lastUser.image }

/-- Modelled from the wording of claim C2, not from the source: the user
message that triggered an error message is the last user-role message that
precedes it in the transcript. Used only to state the counterexample. -/
def specTriggeringUser (msgs : List ChatMessage) (errId : String) : Option ChatMessage :=
  ((msgs.takeWhile (fun m => m.id != errId)).reverse).find?
    (fun m => m.role == Role.user)

/-! ### The audio pipeline (decodeAudioData and playAudio) -/

inductive AudioError
  | rangeError
  | notSupported
deriving DecidableEq

/-- The Int16Array view of the byte buffer: little-endian pairs as signed
16-bit samples. -/
def toInt16Samples : List Nat → List Int
  | lo :: hi :: rest =>
    (let v := lo % 256 + 256 * (hi % 256)
     if v < 32768 then (v : Int) else (v : Int) - 65536) :: toInt16Samples rest
  | _ => []

/-- decodeAudioData from TutorChat: the Int16Array view (which raises a range
error on an odd byte length), the fractional frame count truncated by
createBuffer, the createBuffer argument checks, and the per-channel
de-interleave dividing each sample by 32768. -/
def decodeAudioData (data : List Nat) (numChannels : Nat) :
    Except AudioError (List (List ℚ)) :=
  if data.length % 2 ≠ 0 then .error .rangeError
  else if numChannels = 0 ∨ (toInt16Samples data).length / numChannels = 0 then
    .error .notSupported
  else .ok ((List.range numChannels).map fun c =>
    (List.range ((toInt16Samples data).length / numChannels)).map fun i =>
      (((toInt16Samples data).getD (i * numChannels + c) 0 : ℚ) / 32768))

/-- Success test for an Except value. -/
def exceptOk {ε α : Type} : Except ε α → Bool
  | .ok _ => true
  | .error _ => false

/-- One playback event of the audio pipeline. -/
inductive PlayEvent
  | stop (id : Nat)
  | start (id : Nat)
deriving DecidableEq

/-- The playback handle state: the current source reference and the ordered
trace of stop and start calls. -/
structure PlayerState where
  current : Option Nat
  events : List PlayEvent
deriving DecidableEq

/-- playAudio after a successful decode: stop the previous source if any,
then create, register and start the new source. -/
def playAudio (st : PlayerState) (newId : Nat) : PlayerState :=
  { current := some newId,
    events := st.events ++
      (match st.current with
       | some old => [PlayEvent.stop old]
       | none => []) ++ [PlayEvent.start newId] }

/-! ### Concrete states used by witnesses and counterexamples -/

/-- A first user question with text a. -/
def exMsgU1 : ChatMessage := ⟨"1", .user, "a".data, none⟩

/-- An error-tagged model message answering the first question. -/
def exMsgErr : ChatMessage := ⟨"2", .model, "ERROR_MODE[server]oops".data, none⟩

/-- A second, later user question with text b. -/
def exMsgU2 : ChatMessage := ⟨"3", .user, "b".data, none⟩

/-- A transcript where the error message is followed by a later user message. -/
def exStateC2 : ChatState := ⟨[exMsgU1, exMsgErr, exMsgU2], [], none, false⟩

/-- A transcript where the error message is the latest entry. -/
def exStateC2small : ChatState := ⟨[exMsgU1, exMsgErr], [], none, false⟩

/-- A loading state with a non-empty input. -/
def exStateC1 : ChatState := ⟨[], "hi".data, none, true⟩

/-- An idle state whose input is only whitespace. -/
def exStateBlank : ChatState := ⟨[], " ".data, none, false⟩

/-- An idle empty state that is loading. -/
def exStateLoading : ChatState := ⟨[], [], none, true⟩

/-- A fresh state with a pending question. -/
def exStateC7 : ChatState := ⟨[], "q".data, none, false⟩

/-- A transcript holding only a model message. -/
def exStateC10 : ChatState := ⟨[exMsgErr], "z".data, none, false⟩

/-- A player with a live source. -/
def exPlayer : PlayerState := ⟨some 7, []⟩

/-! ### Lemmas -/

theorem take_len_append (a b : List Char) : (a ++ b).take a.length = a := by
  induction a with
  | nil => simp
  | cons x xs ih => simp [ih]

theorem drop_len_append (a b : List Char) : (a ++ b).drop a.length = b := by
  induction a with
  | nil => simp
  | cons x xs ih => simp [ih]

theorem take_append_general (a b : List Char) (n : Nat) :
    (a ++ b).take n = a.take n ++ b.take (n - a.length) := by
  induction a generalizing n with
  | nil => simp
  | cons x xs ih =>
    cases n with
    | zero => simp
    | succ m => simp [ih, Nat.succ_sub_succ]

theorem drop_append_general (a b : List Char) (n : Nat) :
    (a ++ b).drop n = a.drop n ++ b.drop (n - a.length) := by
  induction a generalizing n with
  | nil => simp
  | cons x xs ih =>
    cases n with
    | zero => simp
    | succ m => simp [ih, Nat.succ_sub_succ]

theorem takeFull (l : List Char) (n : Nat) (h : l.length ≤ n) : l.take n = l := by
  induction l generalizing n with
  | nil => simp
  | cons x xs ih =>
    cases n with
    | zero => simp at h
    | succ m => simp only [List.take_succ_cons]; rw [ih m (by simpa using h)]

theorem leadsWith_iff_take (p cs : List Char) :
    leadsWith p cs = true ↔ cs.take p.length = p := by
  induction p generalizing cs with
  | nil => simp [leadsWith]
  | cons a as ih =>
    cases cs with
    | nil => simp [leadsWith]
    | cons b bs =>
      simp only [leadsWith, Bool.and_eq_true, beq_iff_eq, List.length_cons,
        List.take_succ_cons, List.cons.injEq, ih]
      constructor
      · rintro ⟨h1, h2⟩; exact ⟨h1.symm, h2⟩
      · rintro ⟨h1, h2⟩; exact ⟨h1.symm, h2⟩

theorem leadsWith_append_self (p r : List Char) : leadsWith p (p ++ r) = true := by
  rw [leadsWith_iff_take]; exact take_len_append p r

theorem leadsWith_length_le {p cs : List Char} (h : leadsWith p cs = true) :
    p.length ≤ cs.length := by
  rw [leadsWith_iff_take] at h
  calc p.length = (cs.take p.length).length := by rw [h]
    _ ≤ cs.length := by simp [List.length_take]

theorem leadsWith_append_left {p a b : List Char}
    (h : leadsWith p (a ++ b) = true) (hl : p.length ≤ a.length) :
    leadsWith p a = true := by
  rw [leadsWith_iff_take] at h ⊢
  rw [take_append_general] at h
  have hz : p.length - a.length = 0 := Nat.sub_eq_zero_of_le hl
  simpa [hz] using h

theorem firstOcc_eq_none_iff (sep cs : List Char) :
    firstOcc sep cs = none ↔ ∀ j, leadsWith sep (cs.drop j) = false := by
  induction cs with
  | nil =>
    simp only [firstOcc, List.drop_nil]
    constructor
    · intro h j
      by_cases hl : leadsWith sep [] = true
      · simp [hl] at h
      · simpa using hl
    · intro h
      simp [h 0]
  | cons c cs ih =>
    constructor
    · intro h j
      by_cases hl : leadsWith sep (c :: cs) = true
      · simp [firstOcc, hl] at h
      · cases j with
        | zero => simpa using hl
        | succ j =>
          simp only [firstOcc, if_neg hl, Option.map_eq_none'] at h
          simpa using (ih.mp h) j
    · intro h
      have h0 : leadsWith sep (c :: cs) = false := by simpa using h 0
      simp only [firstOcc, h0, Bool.false_eq_true, if_false, Option.map_eq_none']
      exact ih.mpr fun j => by simpa using h (j + 1)

theorem firstOcc_some_leads {sep cs : List Char} {i : Nat}
    (h : firstOcc sep cs = some i) : leadsWith sep (cs.drop i) = true := by
  induction cs generalizing i with
  | nil =>
    by_cases hl : leadsWith sep [] = true
    · simp only [firstOcc, if_pos hl, Option.some.injEq] at h
      subst h; simpa using hl
    · simp [firstOcc, hl] at h
  | cons c cs ih =>
    by_cases hl : leadsWith sep (c :: cs) = true
    · simp only [firstOcc, if_pos hl, Option.some.injEq] at h
      subst h; simpa using hl
    · simp only [firstOcc, if_neg hl, Option.map_eq_some'] at h
      obtain ⟨j, hj, hji⟩ := h
      subst hji
      simpa using ih hj

theorem firstOcc_eq_some_of {sep cs : List Char} {i : Nat}
    (hi : leadsWith sep (cs.drop i) = true)
    (hmin : ∀ j, j < i → leadsWith sep (cs.drop j) = false) :
    firstOcc sep cs = some i := by
  induction cs generalizing i with
  | nil =>
    cases i with
    | zero => simp only [List.drop_nil] at hi; simp [firstOcc, hi]
    | succ j =>
      exfalso
      have h0 := hmin 0 (Nat.succ_pos j)
      simp only [List.drop_nil] at hi
      simp only [List.drop_nil] at h0
      rw [hi] at h0
      simp at h0
  | cons c cs ih =>
    cases i with
    | zero =>
      simp only [List.drop_zero] at hi
      simp [firstOcc, hi]
    | succ j =>
      have h0 : leadsWith sep (c :: cs) = false := by simpa using hmin 0 (Nat.succ_pos j)
      simp only [firstOcc, h0, Bool.false_eq_true, if_false]
      have hj : firstOcc sep cs = some j := by
        apply ih
        · simpa using hi
        · intro m hm; simpa using hmin (m + 1) (Nat.succ_lt_succ hm)
      simp [hj]

theorem firstOcc_append_boundary (sep A B : List Char)
    (hbf : BorderFree sep) (hA : firstOcc sep A = none) :
    firstOcc sep (A ++ (sep ++ B)) = some A.length := by
  apply firstOcc_eq_some_of
  · rw [drop_len_append]
    exact leadsWith_append_self sep B
  · intro j hj
    by_contra hlw
    have hlw : leadsWith sep ((A ++ (sep ++ B)).drop j) = true := by
      cases hb : leadsWith sep ((A ++ (sep ++ B)).drop j) with
      | false => exact absurd hb hlw
      | true => rfl
    have hdrop : (A ++ (sep ++ B)).drop j = A.drop j ++ (sep ++ B) := by
      rw [drop_append_general]
      have hz : j - A.length = 0 := Nat.sub_eq_zero_of_le (Nat.le_of_lt hj)
      simp [hz]
    rw [hdrop] at hlw
    have hAlen : (A.drop j).length = A.length - j := List.length_drop j A
    rcases le_or_lt sep.length (A.length - j) with hle | hgt
    · -- the whole separator would fit inside `A`: contradicts `hA`
      have : leadsWith sep (A.drop j) = true :=
        leadsWith_append_left hlw (by omega)
      have hnone := (firstOcc_eq_none_iff sep A).mp hA j
      rw [this] at hnone
      simp at hnone
    · -- the separator straddles the boundary: yields a border of `sep`
      set k := A.length - j with hk
      have hk1 : 0 < k := by omega
      rw [leadsWith_iff_take, take_append_general] at hlw
      have htk : (A.drop j).take sep.length = A.drop j :=
        takeFull _ _ (by omega)
      rw [htk] at hlw
      have hT : sep.drop k = (sep ++ B).take (sep.length - (A.drop j).length) := by
        conv_lhs => rw [← hlw]
        rw [← hAlen]
        exact drop_len_append _ _
      rw [take_append_general] at hT
      have hz : sep.length - (A.drop j).length - sep.length = 0 := by omega
      rw [hz] at hT
      simp only [List.take_zero, List.append_nil] at hT
      rw [hAlen] at hT
      exact hbf k hgt hk1 hT

theorem splitListF_of_none {sep cs : List Char} (h : firstOcc sep cs = none) :
    ∀ fuel, splitListF sep fuel cs = [cs] := by
  intro fuel
  cases fuel with
  | zero => rfl
  | succ n => simp [splitListF, h]

theorem splitList_of_none {sep cs : List Char} (h : firstOcc sep cs = none) :
    splitList sep cs = [cs] :=
  splitListF_of_none h _

theorem splitList_append_marker (sep A B : List Char)
    (hbf : BorderFree sep) (hA : firstOcc sep A = none) (hB : firstOcc sep B = none) :
    splitList sep (A ++ sep ++ B) = [A, B] := by
  have hassoc : A ++ sep ++ B = A ++ (sep ++ B) := List.append_assoc A sep B
  have hfo : firstOcc sep (A ++ (sep ++ B)) = some A.length :=
    firstOcc_append_boundary sep A B hbf hA
  rw [hassoc]
  unfold splitList
  simp only [splitListF, hfo]
  have ht : (A ++ (sep ++ B)).take A.length = A := take_len_append A (sep ++ B)
  have hd : (A ++ (sep ++ B)).drop (A.length + sep.length) = B := by
    rw [← List.append_assoc]
    have hl : (A ++ sep).length = A.length + sep.length := List.length_append A sep
    rw [← hl, drop_len_append]
  rw [ht, hd, splitListF_of_none hB]

theorem marker_borderFree : BorderFree EXPLANATION_MARKER := by decide

theorem takeWhile_all {p : Char → Bool} {l : List Char}
    (h : ∀ c ∈ l, p c = true) : l.takeWhile p = l := by
  induction l with
  | nil => rfl
  | cons c cs ih =>
    have hc : p c = true := h c (by simp)
    simp only [List.takeWhile_cons, hc, if_true]
    rw [ih fun x hx => h x (by simp [hx])]

theorem lazyGroup_append {g : List Char} (r : List Char)
    (hg : ∀ c ∈ g, (c == ']') = false ∧ isLineTerm c = false) :
    lazyGroup (g ++ ']' :: r) = some (g, r) := by
  induction g with
  | nil => simp [lazyGroup]
  | cons c g ih =>
    have hc := hg c (by simp)
    have hrest := ih fun x hx => hg x (by simp [hx])
    simp [lazyGroup, hc.1, hc.2, hrest]

theorem kindStr_chars (k : ErrKind) :
    ∀ c ∈ kindStr k, (c == ']') = false ∧ isLineTerm c = false := by
  cases k <;> decide

theorem regexSearch_of_matchAt {cs : List Char} {r : List Char × List Char}
    (h : matchAt cs = some r) : regexSearch cs = some r := by
  cases cs with
  | nil => simpa [regexSearch] using h
  | cons c cs => simp [regexSearch, h]

theorem renderDecode_encode (e : StudyAIError) :
    renderDecode (encodeErrorText e) =
      (kindStr e.kind, e.msg.takeWhile (fun c => !isLineTerm c)) := by
  have hgrp : encodeErrorText e = errPre ++ (kindStr e.kind ++ ']' :: e.msg) := by
    unfold encodeErrorText
    rw [List.append_assoc]
    rfl
  have hlead : leadsWith errPre (encodeErrorText e) = true := by
    rw [hgrp]; exact leadsWith_append_self _ _
  have hlazy : lazyGroup ((encodeErrorText e).drop errPre.length)
      = some (kindStr e.kind, e.msg) := by
    rw [hgrp, drop_len_append]
    exact lazyGroup_append e.msg (kindStr_chars e.kind)
  have hmatch : matchAt (encodeErrorText e)
      = some (kindStr e.kind, e.msg.takeWhile (fun c => !isLineTerm c)) := by
    unfold matchAt
    rw [if_pos hlead, hlazy]
    rfl
  unfold renderDecode
  rw [if_pos hlead, regexSearch_of_matchAt hmatch]

theorem renderDecode_encode_kind (e : StudyAIError) :
    (renderDecode (encodeErrorText e)).1 = kindStr e.kind := by
  rw [renderDecode_encode]

/-! ### Claim C1 -/

/-- Claim C1, amended: handleSend is a no-op, appending no user message and
issuing no AI call, exactly when the trimmed text and the image are both
empty; the in-flight guard exists only as the disabled condition of the Ask
button, which is disabled whenever loading is true, and is not checked inside
handleSend itself. -/
theorem C1_send_guard :
    (∀ (st : ChatState) (now : Nat),
        (jsTrim st.input).isEmpty = true → jsFalsy st.image = true →
        handleSendStart st now = (st, false))
    ∧ (∀ st : ChatState, st.loading = true → askDisabled st = true) := by
  constructor
  · intro st now h1 h2
    simp [handleSendStart, h1, h2]
  · intro st h
    simp [askDisabled, h]

/-- Witness for C1: a whitespace-only input is a no-op, and a loading state
disables the Ask button. -/
theorem C1_send_guard_witness :
    handleSendStart exStateBlank 3 = (exStateBlank, false)
    ∧ askDisabled exStateLoading = true :=
  ⟨C1_send_guard.1 exStateBlank 3 (by decide) (by decide),
   C1_send_guard.2 exStateLoading (by decide)⟩

/-- Counterexample for C1 as stated: in a state with loading already true and
a non-empty input, handleSend is not a no-op; it appends a user message and
issues the AI call. -/
theorem C1_counterexample :
    exStateC1.loading = true
    ∧ (handleSendStart exStateC1 0).1.messages.length
        = exStateC1.messages.length + 1
    ∧ (handleSendStart exStateC1 0).2 = true := by
  refine ⟨rfl, ?_, rfl⟩
  rfl

/-! ### Claim C7 -/

/-- Claim C7: for every send that passes the guard and whose AI call succeeds,
the user message is appended synchronously before the call and the model
message on completion, so the transcript grows by exactly two messages with
the user message first. -/
theorem C7_send_success (st : ChatState) (now now2 : Nat) (text : List Char)
    (hguard : ((jsTrim st.input).isEmpty && jsFalsy st.image) = false) :
    (handleSendStart st now).2 = true
    ∧ (handleSendStart st now).1.messages = st.messages ++ [userMsgOf st now]
    ∧ (handleSendFinish (handleSendStart st now).1 now2 (.ok text)).messages
        = st.messages ++ [userMsgOf st now, botMsgOf now2 text]
    ∧ (handleSendFinish (handleSendStart st now).1 now2 (.ok text)).messages.length
        = st.messages.length + 2
    ∧ (userMsgOf st now).role = Role.user
    ∧ (botMsgOf now2 text).role = Role.model := by
  refine ⟨?_, ?_, ?_, ?_, rfl, rfl⟩
  · simp [handleSendStart, hguard]
  · simp [handleSendStart, hguard]
  · simp [handleSendStart, hguard, handleSendFinish]
  · simp [handleSendStart, hguard, handleSendFinish]

/-- Witness for C7 at a concrete pending question. -/
theorem C7_send_success_witness :
    (handleSendStart exStateC7 1).2 = true
    ∧ (handleSendStart exStateC7 1).1.messages
        = exStateC7.messages ++ [userMsgOf exStateC7 1]
    ∧ (handleSendFinish (handleSendStart exStateC7 1).1 2 (.ok "ans".data)).messages
        = exStateC7.messages ++ [userMsgOf exStateC7 1, botMsgOf 2 "ans".data]
    ∧ (handleSendFinish (handleSendStart exStateC7 1).1 2 (.ok "ans".data)).messages.length
        = exStateC7.messages.length + 2
    ∧ (userMsgOf exStateC7 1).role = Role.user
    ∧ (botMsgOf 2 "ans".data).role = Role.model :=
  C7_send_success exStateC7 1 2 "ans".data (by decide)

/-! ### Claim C8 -/

/-- Claim C8: starting playback while a source is live stops the prior source
before the new one is started, and afterwards exactly the new source is the
live handle. -/
theorem C8_exclusive_playback (st : PlayerState) (old newId : Nat)
    (h : st.current = some old) :
    (playAudio st newId).current = some newId
    ∧ (playAudio st newId).events
        = st.events ++ [PlayEvent.stop old, PlayEvent.start newId] := by
  constructor
  · rfl
  · simp [playAudio, h]

/-- Witness for C8: replacing live source 7 by source 9. -/
theorem C8_exclusive_playback_witness :
    (playAudio exPlayer 9).current = some 9
    ∧ (playAudio exPlayer 9).events
        = exPlayer.events ++ [PlayEvent.stop 7, PlayEvent.start 9] :=
  C8_exclusive_playback exPlayer 7 9 (by decide)

/-! ### Claim C10 -/

/-- Claim C10: when the transcript holds no user-role message, the retry
handler leaves the whole state, transcript, input and pending image,
unchanged. -/
theorem C10_retry_without_user (st : ChatState) (mId : String)
    (h : ∀ m ∈ st.messages, m.role ≠ Role.user) :
    retryClick st mId = st := by
  have hfind : st.messages.reverse.find? (fun m => m.role == Role.user) = none := by
    rw [List.find?_eq_none]
    intro m hm hbeq
    exact h m (List.mem_reverse.mp hm) (by simpa using hbeq)
  simp [retryClick, hfind]

/-- Witness for C10 on a transcript holding only a model message. -/
theorem C10_retry_without_user_witness :
    retryClick exStateC10 "2" = exStateC10 :=
  C10_retry_without_user exStateC10 "2" (by decide)

/-! ### Claim C2 -/

/-- Claim C2, amended: retry on an error message removes every message bearing
the clicked id (exactly that message, shrinking the transcript by one, when
the id is unique) and restores into the input and the pending image the text
and image of the last user-role message of the whole transcript, which is the
triggering message only when no later user message exists; nothing is
auto-resent. -/
theorem C2_retry_restores_last (st : ChatState) (errId : String)
    (lastU : ChatMessage)
    (hfind : st.messages.reverse.find? (fun m => m.role == Role.user) = some lastU)
    (hcount : st.messages.countP (fun m => m.id == errId) = 1) :
    retryClick st errId =
      { st with messages := st.messages.filter (fun m => m.id != errId),
                input := lastU.text,
                image := jsOrNull lastU.image }
    ∧ (retryClick st errId).messages.length + 1 = st.messages.length := by
  have heq : retryClick st errId =
      { st with messages := st.messages.filter (fun m => m.id != errId),
                input := lastU.text,
                image := jsOrNull lastU.image } := by
    simp [retryClick, hfind]
  refine ⟨heq, ?_⟩
  rw [heq]
  have hlen : (st.messages.filter (fun m => m.id != errId)).length
      = st.messages.countP (fun m => m.id != errId) :=
    (List.countP_eq_length_filter _ _).symm
  have htotal : st.messages.length
      = st.messages.countP (fun m => m.id == errId)
        + st.messages.countP (fun m => m.id != errId) := by
    simpa [bne] using
      List.length_eq_countP_add_countP (p := fun m => m.id == errId)
        (l := st.messages)
  simp only [hlen]
  omega

/-- Witness for C2 on a transcript whose error message is the latest entry. -/
theorem C2_retry_restores_last_witness :
    retryClick exStateC2small "2" =
      { exStateC2small with
          messages := exStateC2small.messages.filter (fun m => m.id != "2"),
          input := exMsgU1.text,
          image := jsOrNull exMsgU1.image }
    ∧ (retryClick exStateC2small "2").messages.length + 1
        = exStateC2small.messages.length :=
  C2_retry_restores_last exStateC2small "2" exMsgU1 (by decide) (by decide)

/-- Counterexample for C2 as stated: with a later user message b after the
error, retry restores b although the user message that triggered the error
carried a. -/
theorem C2_counterexample :
    (retryClick exStateC2 "2").input = "b".data
    ∧ (specTriggeringUser exStateC2.messages "2").map ChatMessage.text
        = some "a".data
    ∧ "b".data ≠ "a".data := by
  refine ⟨?_, ?_, by decide⟩
  · rfl
  · rfl

/-! ### Claim C4 -/

/-- Claim C4, amended: decoding inverts the error-tag encoding for every kind
and every human-readable text free of line terminators, and the decoded kind
is recovered for every text whatsoever; a text holding a line terminator is
truncated at that terminator because the regex dot does not cross lines.
Decoding is a pure function of the stored string, which it never alters. -/
theorem C4_decode_roundtrip :
    (∀ e : StudyAIError, (∀ c ∈ e.msg, isLineTerm c = false) →
        renderDecode (encodeErrorText e) = (kindStr e.kind, e.msg))
    ∧ (∀ e : StudyAIError,
        (renderDecode (encodeErrorText e)).1 = kindStr e.kind) := by
  constructor
  · intro e hmsg
    rw [renderDecode_encode]
    have : e.msg.takeWhile (fun c => !isLineTerm c) = e.msg :=
      takeWhile_all fun c hc => by simp [hmsg c hc]
    rw [this]
  · intro e
    exact renderDecode_encode_kind e

/-- Witness for C4 on a concrete timeout tag. -/
theorem C4_decode_roundtrip_witness :
    renderDecode (encodeErrorText ⟨ErrKind.timeout, "slow".data⟩)
      = (kindStr ErrKind.timeout, "slow".data) :=
  C4_decode_roundtrip.1 ⟨ErrKind.timeout, "slow".data⟩ (by decide)

/-- Counterexample for C4 as stated: a network-kind tag whose text holds a
newline decodes to the first line only, not to the full stored text. -/
theorem C4_counterexample :
    renderDecode (encodeErrorText ⟨ErrKind.network, "a\nb".data⟩)
      = ("network".data, "a".data)
    ∧ "a".data ≠ "a\nb".data := by
  exact ⟨rfl, by decide⟩

/-! ### Claim C6 -/

/-- Claim C6: solveQuestion classifies every failure deterministically in the
order of the catch cascade: offline fails with kind network independently of
the outcome; a StudyAIError passes through unchanged; network words, then
timeout words, then quota words, then the generic server fallback classify an
unrecognized thrown message; an empty response body yields safety when
safety-blocked and server otherwise; and the error-tagged model message later
appended by the controller always decodes back to the same kind. -/
theorem C6_failure_classification :
    (∀ o : GenOutcome,
        solveQuestion false o = .error ⟨ErrKind.network, offlineMsg⟩)
    ∧ (∀ (k : ErrKind) (m : List Char),
        solveQuestion true (.thrown (.studyAI k m)) = .error ⟨k, m⟩)
    ∧ (∀ m : List Char, netWords (toLowerList m) = true →
        solveQuestion true (.thrown (.other m))
          = .error ⟨ErrKind.network, netFailMsg⟩)
    ∧ (∀ m : List Char, netWords (toLowerList m) = false →
        timeWords (toLowerList m) = true →
        solveQuestion true (.thrown (.other m))
          = .error ⟨ErrKind.timeout, timeoutMsg⟩)
    ∧ (∀ m : List Char, netWords (toLowerList m) = false →
        timeWords (toLowerList m) = false →
        quotaWords (toLowerList m) = true →
        solveQuestion true (.thrown (.other m))
          = .error ⟨ErrKind.server, capacityMsg⟩)
    ∧ (∀ m : List Char, netWords (toLowerList m) = false →
        timeWords (toLowerList m) = false →
        quotaWords (toLowerList m) = false →
        solveQuestion true (.thrown (.other m))
          = .error ⟨ErrKind.server, genericServerMsg⟩)
    ∧ (∀ b : Bool,
        solveQuestion true (.response [] b)
          = .error (if b then ⟨ErrKind.safety, safetyMsg⟩
                    else ⟨ErrKind.server, emptyRespMsg⟩))
    ∧ (∀ e : StudyAIError,
        (renderDecode (encodeErrorText e)).1 = kindStr e.kind) := by
  refine ⟨?_, ?_, ?_, ?_, ?_, ?_, ?_, ?_⟩
  · intro o; rfl
  · intro k m; rfl
  · intro m h; simp [solveQuestion, classifyCatch, h]
  · intro m h1 h2; simp [solveQuestion, classifyCatch, h1, h2]
  · intro m h1 h2 h3; simp [solveQuestion, classifyCatch, h1, h2, h3]
  · intro m h1 h2 h3; simp [solveQuestion, classifyCatch, h1, h2, h3]
  · intro b; cases b <;> rfl
  · intro e; exact renderDecode_encode_kind e

/-- Witness for C6: a deadline message classifies as timeout, and its tagged
message decodes back to the timeout kind. -/
theorem C6_failure_classification_witness :
    solveQuestion true (.thrown (.other "Deadline exceeded".data))
      = .error ⟨ErrKind.timeout, timeoutMsg⟩
    ∧ (renderDecode (encodeErrorText ⟨ErrKind.timeout, timeoutMsg⟩)).1
      = kindStr ErrKind.timeout :=
  ⟨C6_failure_classification.2.2.2.1 "Deadline exceeded".data
      (by decide) (by decide),
   C6_failure_classification.2.2.2.2.2.2.2 ⟨ErrKind.timeout, timeoutMsg⟩⟩

/-! ### Claim C9 -/

theorem jsIncludes_false_iff (hay needle : List Char) :
    jsIncludes hay needle = false ↔ firstOcc needle hay = none := by
  unfold jsIncludes
  cases firstOcc needle hay <;> simp

/-- Claim C9: for strings A and B that do not contain the marker, splitting
the concatenation A marker B yields answer A and explanation B; and a string
without the marker splits into itself as the answer with no explanation. -/
theorem C9_split_two_parts :
    (∀ A B : List Char,
        jsIncludes A EXPLANATION_MARKER = false →
        jsIncludes B EXPLANATION_MARKER = false →
        splitMessage (A ++ EXPLANATION_MARKER ++ B) = [A, B]
        ∧ answerOf (A ++ EXPLANATION_MARKER ++ B) = A
        ∧ explanationOf (A ++ EXPLANATION_MARKER ++ B) = some B)
    ∧ (∀ s : List Char, jsIncludes s EXPLANATION_MARKER = false →
        splitMessage s = [s] ∧ answerOf s = s ∧ explanationOf s = none) := by
  constructor
  · intro A B hA hB
    rw [jsIncludes_false_iff] at hA hB
    have hsplit : splitMessage (A ++ EXPLANATION_MARKER ++ B) = [A, B] :=
      splitList_append_marker EXPLANATION_MARKER A B marker_borderFree hA hB
    refine ⟨hsplit, ?_, ?_⟩
    · unfold answerOf; rw [hsplit]; rfl
    · unfold explanationOf; rw [hsplit]; rfl
  · intro s hs
    rw [jsIncludes_false_iff] at hs
    have hsplit : splitMessage s = [s] := splitList_of_none hs
    refine ⟨hsplit, ?_, ?_⟩
    · unfold answerOf; rw [hsplit]; rfl
    · unfold explanationOf; rw [hsplit]; rfl

/-- Witness for C9 on a concrete two-part answer and a concrete plain answer. -/
theorem C9_split_two_parts_witness :
    (splitMessage ("2x".data ++ EXPLANATION_MARKER ++ "because".data)
        = ["2x".data, "because".data]
      ∧ answerOf ("2x".data ++ EXPLANATION_MARKER ++ "because".data) = "2x".data
      ∧ explanationOf ("2x".data ++ EXPLANATION_MARKER ++ "because".data)
        = some "because".data)
    ∧ (splitMessage "plain".data = ["plain".data]
      ∧ answerOf "plain".data = "plain".data
      ∧ explanationOf "plain".data = none) :=
  ⟨C9_split_two_parts.1 "2x".data "because".data (by decide) (by decide),
   C9_split_two_parts.2 "plain".data (by decide)⟩

/-! ### Claim C5 -/

theorem answerOf_eq_take {t : List Char} {i : Nat}
    (hfo : firstOcc EXPLANATION_MARKER t = some i) : answerOf t = t.take i := by
  unfold answerOf splitMessage splitList
  simp only [splitListF, hfo]
  rfl

/-- Claim C5, amended: every string returned successfully by solveQuestion is
non-empty, and part 0 of its split is the whole string when the marker is
absent and non-empty except when the response begins with the marker, in
which case part 0 is empty; non-emptiness of part 0 is not guaranteed in
general because solveQuestion only validates that the whole response text is
non-empty. -/
theorem C5_answer_nonempty :
    ∀ (onLine : Bool) (o : GenOutcome) (t : List Char),
      solveQuestion onLine o = .ok t →
      t ≠ []
      ∧ (firstOcc EXPLANATION_MARKER t = none → answerOf t = t)
      ∧ (leadsWith EXPLANATION_MARKER t = false → answerOf t ≠ []) := by
  intro onLine o t h
  have ht : t ≠ [] := by
    cases onLine with
    | false => simp [solveQuestion] at h
    | true =>
      cases o with
      | thrown e => cases e <;> simp [solveQuestion] at h
      | response text b =>
        cases htext : text.isEmpty with
        | true => cases b <;> simp [solveQuestion, htext] at h
        | false =>
          simp only [solveQuestion, Bool.not_true, Bool.false_eq_true,
            if_false, htext, Except.ok.injEq] at h
          subst h
          simpa using htext
  refine ⟨ht, ?_, ?_⟩
  · intro hno
    unfold answerOf splitMessage
    rw [splitList_of_none hno]
    rfl
  · intro hlead
    cases hfo : firstOcc EXPLANATION_MARKER t with
    | none =>
      unfold answerOf splitMessage
      rw [splitList_of_none hfo]
      simpa using ht
    | some i =>
      have hi : i ≠ 0 := by
        intro h0
        subst h0
        have := firstOcc_some_leads hfo
        simp only [List.drop_zero] at this
        rw [this] at hlead
        simp at hlead
      rw [answerOf_eq_take hfo]
      simp only [ne_eq, List.take_eq_nil_iff]
      push_neg
      exact ⟨hi, ht⟩

/-- Witness for C5 on a successful plain response. -/
theorem C5_answer_nonempty_witness :
    "hi".data ≠ []
    ∧ (firstOcc EXPLANATION_MARKER "hi".data = none →
        answerOf "hi".data = "hi".data)
    ∧ (leadsWith EXPLANATION_MARKER "hi".data = false →
        answerOf "hi".data ≠ []) :=
  C5_answer_nonempty true (.response "hi".data false) "hi".data rfl

/-- Counterexample for C5 as stated: a response consisting of the marker
followed by text is returned successfully, yet part 0 of its split is the
empty answer. -/
theorem C5_counterexample :
    solveQuestion true (.response "[EXPLANATION]x".data false)
      = .ok "[EXPLANATION]x".data
    ∧ answerOf "[EXPLANATION]x".data = [] := by
  exact ⟨rfl, rfl⟩

/-! ### Claim C3 -/

theorem toInt16Samples_length : ∀ data : List Nat,
    (toInt16Samples data).length = data.length / 2
  | [] => by simp [toInt16Samples]
  | [x] => by simp [toInt16Samples]
  | lo :: hi :: rest => by
    simp only [toInt16Samples, List.length_cons]
    rw [toInt16Samples_length rest]
    omega

theorem getD_range_map {α : Type} (d : α) (n : Nat) (f : Nat → α) (c : Nat)
    (hc : c < n) : ((List.range n).map f).getD c d = f c := by
  rw [List.getD_eq_getElem?_getD, List.getElem?_map, List.getElem?_range hc]
  rfl

/-- Claim C3, amended: decodeAudioData performs no channel-alignment check.
It fails, with the range error of the Int16Array view, exactly on an odd byte
length (and with a not-supported error when the channel count or the
truncated frame count is zero). A byte length that is even but not a multiple
of channelCount times two silently drops the incomplete final frame. When the
byte length is a positive multiple of channelCount times two, decoding
succeeds and de-interleaves: channel c holds frame i equal to the signed
16-bit sample at interleaved index i times channelCount plus c, divided by
32768. -/
theorem C3_pcm_decode :
    (∀ (data : List Nat) (nc : Nat), data.length % 2 = 1 →
        decodeAudioData data nc = .error AudioError.rangeError)
    ∧ (∀ (data : List Nat) (nc : Nat), 0 < nc → data.length % (2 * nc) = 0 →
        data ≠ [] →
        ∃ chans : List (List ℚ),
          decodeAudioData data nc = .ok chans
          ∧ chans.length = nc
          ∧ (∀ c, c < nc →
              (chans.getD c []).length = data.length / (2 * nc))
          ∧ (∀ c, c < nc → ∀ i, i < data.length / (2 * nc) →
              (chans.getD c []).getD i 0
                = ((toInt16Samples data).getD (i * nc + c) 0 : ℚ) / 32768)) := by
  constructor
  · intro data nc hodd
    unfold decodeAudioData
    rw [if_pos (by omega)]
  · intro data nc hnc hm hne
    have h2 : data.length % 2 = 0 := by
      have hdvd : (2 : Nat) ∣ 2 * nc := dvd_mul_right 2 nc
      have := Nat.mod_mod_of_dvd data.length hdvd
      omega
    have hframe : (toInt16Samples data).length / nc = data.length / (2 * nc) := by
      rw [toInt16Samples_length, Nat.div_div_eq_div_mul]
    have hpos : 0 < data.length / (2 * nc) := by
      apply Nat.div_pos
      · exact Nat.le_of_dvd (List.length_pos.mpr hne) (Nat.dvd_of_mod_eq_zero hm)
      · omega
    have hkey : decodeAudioData data nc
        = .ok ((List.range nc).map fun c =>
            (List.range (data.length / (2 * nc))).map fun i =>
              (((toInt16Samples data).getD (i * nc + c) 0 : ℚ) / 32768)) := by
      unfold decodeAudioData
      rw [if_neg (by omega), if_neg (by rw [hframe]; omega), hframe]
    refine ⟨_, hkey, by simp, ?_, ?_⟩
    · intro c hc
      rw [getD_range_map [] nc _ c hc]
      simp
    · intro c hc i hi
      rw [getD_range_map [] nc _ c hc, getD_range_map 0 _ _ i hi]

/-- Witness for C3: an odd byte buffer raises the range error, and a single
16-bit frame on one channel decodes. -/
theorem C3_pcm_decode_witness :
    decodeAudioData [5] 1 = .error AudioError.rangeError
    ∧ (∃ chans : List (List ℚ),
        decodeAudioData [1, 0] 1 = .ok chans
        ∧ chans.length = 1
        ∧ (∀ c, c < 1 →
            (chans.getD c []).length = ([1, 0] : List Nat).length / (2 * 1))
        ∧ (∀ c, c < 1 → ∀ i, i < ([1, 0] : List Nat).length / (2 * 1) →
            (chans.getD c []).getD i 0
              = ((toInt16Samples [1, 0]).getD (i * 1 + c) 0 : ℚ) / 32768)) :=
  ⟨C3_pcm_decode.1 [5] 1 (by decide),
   C3_pcm_decode.2 [1, 0] 1 (by decide) (by decide) (by decide)⟩

/-- Counterexample for C3 as stated: six bytes on two channels, a byte length
that is not a multiple of channelCount times two, decode successfully instead
of failing; the incomplete final frame is dropped. -/
theorem C3_counterexample :
    exceptOk (decodeAudioData [1, 0, 2, 0, 3, 0] 2) = true
    ∧ ([1, 0, 2, 0, 3, 0] : List Nat).length % (2 * 2) ≠ 0 := by
  exact ⟨rfl, by decide⟩

end JoshuaAI
